import Mathlib

set_option maxRecDepth 4000

/-!
Verification development for the NightlyPrices core
(`nightly_price/analysis/price_processor.py` and
`nightly_price/analysis/statistics.py`), shallowly embedded in Lean.

Modelling conventions, fixed once for the whole file:

* A pandas `Timestamp` (midnight, no time component) is an `Int`: the number
  of calendar days since 1970-01-01.  Calendar conversions use the standard
  civil-from-days / days-from-civil algorithms; all dates handled by the
  program lie after 1970, where every integer-division convention agrees.
* A possibly-`NaN` float cell is an `Option ℚ` (`none` = `NaN`/missing).
  Float arithmetic on the values the program manipulates (sums, means,
  multiplication by the literal factors 0.97/1.03, comparisons against the
  literal thresholds) is modelled exactly over `ℚ`; `NaN` propagation of
  `+`/`*` is explicit (`addN`, `mulN`), and every pandas comparison
  involving `NaN` yields `false`, which `Option` matching reproduces.
* A dataframe is a list of rows plus one boolean per optional column,
  recording whether that column exists in the frame.  When a column-presence
  flag is `false` the corresponding row fields are `none` and never read;
  reading a column that does not exist raises `KeyError` in pandas and is
  modelled as `Except.error`.
* Python variable scoping matters for `extrapolate_prices_backward`: the
  local `closest_date` persists across loop iterations (over dates *and*
  over entities), and referencing it before any assignment raises a
  `NameError` that the surrounding `except (KeyError, ValueError)` does not
  catch.  The embedding threads that variable as an explicit `Option Row`
  state and models the `NameError` as `Except.error`.
* `df.sort_values` is embedded as a stable insertion sort; pandas' default
  quicksort is unstable, so the order among rows with equal keys is
  implementation-defined in the source and the stable order is one valid
  refinement of it (no claim below depends on the order of equal keys).
* Input dataframes are taken with the `date` column already in datetime
  form, so the in-place `pd.to_datetime` conversion at the top of both
  processing functions is the identity.
-/

namespace NightlyPrices

/-! ## Calendar arithmetic (embedding of pandas `Timestamp` mechanics) -/

/-- Days since 1970-01-01 of the civil date `(y, m, d)`
(Howard Hinnant's `days_from_civil`; exact for all dates used here). -/
def daysFromCivil (y m d : Int) : Int :=
  let y' := if m ≤ 2 then y - 1 else y
  let era := (if 0 ≤ y' then y' else y' - 399) / 400
  let yoe := y' - era * 400
  let mp := (m + 9) % 12
  let doy := (153 * mp + 2) / 5 + d - 1
  let doe := yoe * 365 + yoe / 4 - yoe / 100 + doy
  era * 146097 + doe - 719468

/-- Civil date `(y, m, d)` of a days-since-epoch count
(Howard Hinnant's `civil_from_days`). -/
def civilFromDays (z : Int) : Int × Int × Int :=
  let z' := z + 719468
  let era := (if 0 ≤ z' then z' else z' - 146096) / 146097
  let doe := z' - era * 146097
  let yoe := (doe - doe / 1460 + doe / 36524 - doe / 146096) / 365
  let y := yoe + era * 400
  let doy := doe - (365 * yoe + yoe / 4 - yoe / 100)
  let mp := (5 * doy + 2) / 153
  let d := doy - (153 * mp + 2) / 5 + 1
  let m := if mp < 10 then mp + 3 else mp - 9
  (if m ≤ 2 then y + 1 else y, m, d)

/-- `True` for Gregorian leap years. -/
def isLeapYear (y : Int) : Bool :=
  y % 4 = 0 && (y % 100 ≠ 0 || y % 400 = 0)

/-- Number of days in month `m` of year `y`. -/
def daysInMonth (y m : Int) : Int :=
  if m = 2 then (if isLeapYear y then 29 else 28)
  else if m = 4 ∨ m = 6 ∨ m = 9 ∨ m = 11 then 30
  else 31

/-- `pd.DateOffset(years=1)` added to a timestamp: same month/day next year,
with the day clamped to the target month's length (Feb 29 → Feb 28). -/
def addYears1 (t : Int) : Int :=
  let c := civilFromDays t
  daysFromCivil (c.1 + 1) c.2.1 (min c.2.2 (daysInMonth (c.1 + 1) c.2.1))

/-- `pd.DateOffset(years=1)` subtracted from a timestamp (same clamping). -/
def subYears1 (t : Int) : Int :=
  let c := civilFromDays t
  daysFromCivil (c.1 - 1) c.2.1 (min c.2.2 (daysInMonth (c.1 - 1) c.2.1))

/-- pandas `dayofweek`: Monday = 0.  1970-01-01 was a Thursday. -/
def weekday (t : Int) : Int := (t + 3) % 7

/-- Month component of a timestamp (`Series.dt.month`). -/
def monthOf (t : Int) : Int := (civilFromDays t).2.1

/-- `pd.date_range(a, b)` with daily frequency: all days from `a` to `b`
inclusive (empty when `b < a`). -/
def dateRange (a b : Int) : List Int :=
  (List.range (b + 1 - a).toNat).map (fun i : Nat => a + (i : Int))


/-! ## NaN-aware numeric helpers -/

/-- NaN-propagating addition of two float cells. -/
def addN : Option ℚ → Option ℚ → Option ℚ
  | some a, some b => some (a + b)
  | _, _ => none

/-- NaN-propagating multiplication of a float cell by a constant. -/
def mulN (c : ℚ) : Option ℚ → Option ℚ
  | some a => some (a * c)
  | none => none

/-- `Series.mean()`: arithmetic mean of the non-`NaN` entries, `NaN` when
there are none. -/
def meanOpt (l : List (Option ℚ)) : Option ℚ :=
  let vs := l.reduceOption
  if vs = [] then none else some (vs.sum / (vs.length : ℚ))

/-- `Series.argmin()` over `f`: first element attaining the minimum
(`none` on an empty list). -/
def argminBy (f : α → Int) : List α → Option α
  | [] => none
  | x :: xs => some (xs.foldl (fun best y => if f y < f best then y else best) x)


/-- Minimum of a list of dates (`Series.min()`: `none` on empty = `NaT`). -/
def minD : List Int → Option Int
  | [] => none
  | a :: l => match minD l with
    | none => some a
    | some b => some (min a b)



/-! ## Data model

A `Row` is one dataframe row.  `DF` adds the column-presence flags: pandas
distinguishes a column that is absent from the frame (access raises
`KeyError`) from a present column holding `NaN`s.  `multiunit_id` and
`date` always exist (the code reads them unconditionally). -/

structure Row where
  multiunit_id : Nat
  date : Int
  base : Option ℚ := none
  seasonality : Option ℚ := none
  dow : Option ℚ := none
  event : Option ℚ := none
  price : Option ℚ := none
  total_price : Option ℚ := none
  is_extrapolated : Option Bool := none
  deriving DecidableEq, Repr

structure DF where
  rows : List Row
  hasBase : Bool := false
  hasSeasonality : Bool := false
  hasDow : Bool := false
  hasEvent : Bool := false
  hasPrice : Bool := false
  hasTotalPrice : Bool := false
  hasIsExtrap : Bool := false
  deriving DecidableEq, Repr

/-- Stable sort of rows by date (`group.sort_values('date')`). -/
def sortByDate (l : List Row) : List Row :=
  l.insertionSort (fun r s => r.date ≤ s.date)

/-- Stable sort of rows by `(multiunit_id, date)`
(`combined_df.sort_values(['multiunit_id', 'date'])`). -/
def sortByIdDate (l : List Row) : List Row :=
  l.insertionSort (fun r s =>
    r.multiunit_id < s.multiunit_id ∨
      (r.multiunit_id = s.multiunit_id ∧ r.date ≤ s.date))

/-- `Series.unique()`: values in order of first appearance. -/
def uniqueApp (l : List Nat) : List Nat :=
  l.foldl (fun acc a => if a ∈ acc then acc else acc ++ [a]) []

/-! ## PriceAggregator — `PriceProcessor.calculate_total_price`

The source copies the frame, fills each entirely-absent factor column with
the scalar 0, and sets `total_price = base + seasonality + dow + event`
row-wise (pandas `+`, which propagates `NaN`).  The second component of the
result is the state of the caller's dataframe after the call: the source
works on `df.copy()`, so it is the unmodified input. -/

def calculate_total_price (df : DF) : DF × DF :=
  let rows := df.rows.map (fun r =>
    let ba := if df.hasBase then r.base else some 0
    let se := if df.hasSeasonality then r.seasonality else some 0
    let dw := if df.hasDow then r.dow else some 0
    let ev := if df.hasEvent then r.event else some 0
    { r with base := ba, seasonality := se, dow := dw, event := ev,
             total_price := addN (addN (addN ba se) dw) ev })
  ({ df with rows := rows, hasBase := true, hasSeasonality := true,
             hasDow := true, hasEvent := true, hasTotalPrice := true }, df)

/-! ## BackwardExtrapolator — `PriceProcessor.extrapolate_prices_backward`

The fixed cutoff is `pd.Timestamp('2024-01-01')`. -/

def targetStartDate : Int := daysFromCivil 2024 1 1

/-- Message for the uncaught `NameError` raised when the `len >= 2` branch
set no `closest_date` and none is left over from an earlier iteration
(`except (KeyError, ValueError)` does not catch `NameError`). -/
def nameErrorMsg : String := "NameError: closest_date referenced before assignment"

/-- The keys conditionally inserted into `new_row` before the price step.
The outer `Option` is dict-key presence, the inner one the (possibly `NaN`)
value, mirroring `new_row['event'] = ...` guarded by an exact future match
and column existence. -/
def copiedKey (exact : List Row) (hasCol : Bool) (get : Row → Option ℚ) :
    Option (Option ℚ) :=
  match exact with
  | [] => none
  | r :: _ => if hasCol then some (get r) else none

/-- The `try:` block of the per-date loop, lines 101–117 of the source:
resolves the `dow` key, the `price` key and the new `closest_date` state
from the same-weekday window `swd` (known nonempty, `dow` column known
present).  Returns `(dow key, price key, closest_date afterwards)`. -/
def stepPrice (df : DF) (swd : List Row) (fut : Int) (st : Option Row)
    (baK seK evK : Option (Option ℚ)) :
    Except String (Option (Option ℚ) × Option (Option ℚ) × Option Row) :=
  if swd.length ≥ 2 then
    let dwV := meanOpt (swd.map (·.dow))
    if baK.isSome && seK.isSome && evK.isSome then
      .ok (some dwV,
           some (mulN (97/100)
             (addN (addN (addN (baK.getD none) (seK.getD none)) dwV) (evK.getD none))),
           st)
    else
      match st with
      | none => .error nameErrorMsg
      | some cd =>
        .ok (some dwV,
             if df.hasPrice && cd.price.isSome then some (mulN (97/100) cd.price)
             else none,
             st)
  else
    match argminBy (fun r => |r.date - fut|) swd with
    | none => .ok (none, none, st)
    | some cd =>
      if baK.isSome && seK.isSome && evK.isSome then
        .ok (some cd.dow,
             some (mulN (97/100)
               (addN (addN (addN (baK.getD none) (seK.getD none)) cd.dow) (evK.getD none))),
             some cd)
      else
        .ok (some cd.dow,
             if df.hasPrice && cd.price.isSome then some (mulN (97/100) cd.price)
             else none,
             some cd)

/-- Assemble the emitted row from the `new_row` dict keys (key absent and
key present with `NaN` both flatten to a `NaN` cell once the list of dicts
becomes a dataframe). -/
def mkExtrapRow (id : Nat) (d : Int)
    (baK seK dwK evK prK : Option (Option ℚ)) : Row :=
  { multiunit_id := id, date := d,
    base := baK.getD none, seasonality := seK.getD none,
    dow := dwK.getD none, event := evK.getD none,
    price := prK.getD none, is_extrapolated := some true }

/-- Body of `for missing_date in missing_dates` (source lines 70–121) for
one candidate date `d`: possibly emits one row and updates the
`closest_date` state. -/
def stepDate (df : DF) (group : List Row) (id : Nat) (d : Int)
    (st : Option Row) : Except String (Option Row × Option Row) :=
  let fut := addYears1 d
  let exact := group.filter (fun r => r.date = fut)
  let evK := copiedKey exact df.hasEvent (·.event)
  let seK := copiedKey exact df.hasSeasonality (·.seasonality)
  let baK := copiedKey exact df.hasBase (·.base)
  let swd := group.filter (fun r =>
    weekday r.date = weekday fut ∧ fut - 14 ≤ r.date ∧ r.date ≤ fut + 14)
  if !swd.isEmpty && df.hasDow then
    match stepPrice df swd fut st baK seK evK with
    | .error e => .error e
    | .ok (dwK, prK, st') => .ok (some (mkExtrapRow id d baK seK dwK evK prK), st')
  else
    .ok (none, st)

/-- The per-entity date loop, in candidate-date order. -/
def processDates (df : DF) (group : List Row) (id : Nat) :
    List Int → Option Row → Except String (List Row × Option Row)
  | [], st => .ok ([], st)
  | d :: ds, st =>
    match stepDate df group id d st with
    | .error e => .error e
    | .ok (o, st') =>
      match processDates df group id ds st' with
      | .error e => .error e
      | .ok (rs, st'') => .ok (o.toList ++ rs, st'')

/-- One entity (source lines 55–121): its sorted series, its own earliest
date, and — when that is after the cutoff — the loop over the missing
dates `[cutoff, earliest - 1]`. -/
def processEntity (df : DF) (id : Nat) (st : Option Row) :
    Except String (List Row × Option Row) :=
  let group := sortByDate (df.rows.filter (fun r => r.multiunit_id = id))
  match minD (group.map (·.date)) with
  | none => .ok ([], st)
  | some ge =>
    if targetStartDate < ge then
      processDates df group id (dateRange targetStartDate (ge - 1)) st
    else .ok ([], st)

/-- Loop over `df['multiunit_id'].unique()`, threading the function-scoped
`closest_date` variable across entities. -/
def processEntities (df : DF) : List Nat → Option Row → Except String (List Row)
  | [], _ => .ok []
  | id :: ids, st =>
    match processEntity df id st with
    | .error e => .error e
    | .ok (rs, st') =>
      match processEntities df ids st' with
      | .error e => .error e
      | .ok rest => .ok (rs ++ rest)

/-- All rows the extrapolator synthesizes (`extrapolated_data` at source
line 123), including the global early-exit guard at lines 44–46. -/
def extrapolatedRows (df : DF) : Except String (List Row) :=
  match minD (df.rows.map (·.date)) with
  | none => processEntities df (uniqueApp (df.rows.map (·.multiunit_id))) none
  | some e =>
    if e ≤ targetStartDate then .ok []
    else processEntities df (uniqueApp (df.rows.map (·.multiunit_id))) none

/-- In-place effect of `df['is_extrapolated'] = False` (source line 143). -/
def addIsExtrapFalse (df : DF) : DF :=
  { df with hasIsExtrap := true,
            rows := df.rows.map (fun r => { r with is_extrapolated := some false }) }

/-- `PriceProcessor.extrapolate_prices_backward`.  First component: the
returned dataframe (or the propagated uncaught exception); second
component: the caller's dataframe after the call, capturing the in-place
mutation on the no-extrapolation path (source lines 142–143). -/
def extrapolate_prices_backward (df : DF) : Except String DF × DF :=
  match minD (df.rows.map (·.date)) with
  | some e =>
    if e ≤ targetStartDate then (.ok df, df)
    else
      match extrapolatedRows df with
      | .error err => (.error err, df)
      | .ok ext =>
        if ext.isEmpty then
          let df' := if df.hasIsExtrap then df else addIsExtrapFalse df
          (.ok df', df')
        else
          let combinedRows := df.rows ++ ext
          let filled :=
            if df.hasIsExtrap then combinedRows
            else combinedRows.map (fun r =>
              if r.is_extrapolated = none then { r with is_extrapolated := some false }
              else r)
          let combined : DF :=
            { rows := sortByIdDate filled,
              hasBase := df.hasBase || ext.any (·.base.isSome),
              hasSeasonality := df.hasSeasonality || ext.any (·.seasonality.isSome),
              hasDow := df.hasDow || ext.any (·.dow.isSome),
              hasEvent := df.hasEvent || ext.any (·.event.isSome),
              hasPrice := df.hasPrice || ext.any (·.price.isSome),
              hasTotalPrice := df.hasTotalPrice,
              hasIsExtrap := true }
          (.ok combined, df)
  | none =>
    -- `df['date'].min()` on an empty frame is `NaN`; `NaN <= cutoff` is
    -- false, so the loop runs over no entities and the no-extrapolation
    -- path mutates the (empty) input.
    let df' := if df.hasIsExtrap then df else addIsExtrapFalse df
    (.ok df', df')

/-! ## AnalogMatcher — `PriceProcessor.find_improved_matches`

Fixed window: targets in `[2025-01-01, 2026-03-31]`, analog candidates
strictly before `2025-04-21`. -/

def matchStartDate : Int := daysFromCivil 2025 1 1
def matchEndDate : Int := daysFromCivil 2026 3 31
def pastDateLimit : Int := daysFromCivil 2025 4 21

/-- A row of the improved-matches result set.  `event_match` carries the
value of the derived column added at source line 303; whether that column
exists in the frame is `MatchDF.hasEventMatch`. -/
structure MRow where
  multiunit_id : Nat
  date : Int
  matched_from : Int
  days_diff : Int
  is_improved_match : Bool
  match_reason : String
  price : Option ℚ := none
  base : Option ℚ := none
  seasonality : Option ℚ := none
  dow : Option ℚ := none
  event : Option ℚ := none
  event_match : Bool := false
  deriving DecidableEq, Repr

structure MatchDF where
  rows : List MRow
  hasEventMatch : Bool := false
  deriving DecidableEq, Repr

/-- Tier 1 candidates (source lines 215–218): within 14 days of the target
and event factor within 20 of the future row's event factor (a `NaN` event
fails the comparison). -/
def tier1Cands (pg : List Row) (target : Int) (fe : ℚ) : List Row :=
  pg.filter (fun r => decide (|r.date - target| ≤ 14) &&
    match r.event with
    | some v => decide (|v - fe| ≤ 20)
    | none => false)

/-- Tier 2 candidates (source lines 234–238): within 14 days, same weekday,
event missing or ≤ 10. -/
def tier2Cands (pg : List Row) (target : Int) : List Row :=
  pg.filter (fun r => decide (|r.date - target| ≤ 14) &&
    decide (weekday r.date = weekday target) &&
    match r.event with
    | some v => decide (v ≤ 10)
    | none => true)

/-- Tier 3 candidates (source lines 249–253): the 21-day widening of
tier 2.  Its filter also reads `past_group['event']`. -/
def tier3Cands (pg : List Row) (target : Int) : List Row :=
  pg.filter (fun r => decide (|r.date - target| ≤ 21) &&
    decide (weekday r.date = weekday target) &&
    match r.event with
    | some v => decide (v ≤ 10)
    | none => true)

/-- Tier 4 candidates (source line 263): any record within 14 days. -/
def tier4Cands (pg : List Row) (target : Int) : List Row :=
  pg.filter (fun r => |r.date - target| ≤ 14)

/-- The cascading tier evaluation for one future row (source lines
206–270), returning the matched date and `match_reason`.  The tier-3 filter
evaluates `past_group['event']` unconditionally, so reaching it with no
event column in the frame raises `KeyError: 'event'`; tiers 1–2 only run
when the column exists. -/
def selectMatch (hasEvent : Bool) (pg : List Row) (fr : Row) (target : Int) :
    Except String (Option (Int × String)) :=
  let m1 : Option Int :=
    if hasEvent then
      -- `future_event = future_row.get('event', 0)`; `NaN > 1` is false.
      match fr.event with
      | some fe => if 1 < fe then (argminBy (fun r => |r.date - target|) (tier1Cands pg target fe)).map (·.date) else none
      | none => none
    else none
  match m1 with
  | some bd => .ok (some (bd, "event_match"))
  | none =>
    let m2 : Option Int :=
      if hasEvent then (argminBy (fun r => |r.date - target|) (tier2Cands pg target)).map (·.date)
      else none
    match m2 with
    | some bd => .ok (some (bd, "weekday_match_no_event"))
    | none =>
      if hasEvent then
        match (argminBy (fun r => |r.date - target|) (tier3Cands pg target)).map (·.date) with
        | some bd => .ok (some (bd, "weekday_match"))
        | none =>
          match (argminBy (fun r => |r.date - target|) (tier4Cands pg target)).map (·.date) with
          | some bd => .ok (some (bd, "closest_date"))
          | none => .ok none
      else .error "KeyError: event"

/-- Assembles the emitted match row (source lines 277–295): 3% uplifted
price when the price column exists, factor columns copied through where the
column exists and the matched row's value is not `NaN`. -/
def buildMatchRow (df : DF) (fd bd target : Int) (reason : String) (m : Row) : MRow :=
  { multiunit_id := m.multiunit_id, date := fd, matched_from := bd,
    days_diff := |bd - target|, is_improved_match := true, match_reason := reason,
    price := if df.hasPrice then mulN (103/100) m.price else none,
    base := if df.hasBase then m.base else none,
    seasonality := if df.hasSeasonality then m.seasonality else none,
    dow := if df.hasDow then m.dow else none,
    event := if df.hasEvent then m.event else none,
    event_match := reason = "event_match" }

/-- Processing of one future row against one entity's past rows. -/
def processTarget (df : DF) (pg : List Row) (fr : Row) :
    Except String (Option MRow) :=
  let target := subYears1 fr.date
  match selectMatch df.hasEvent pg fr target with
  | .error e => .error e
  | .ok none => .ok none
  | .ok (some (bd, reason)) =>
    -- `matching_row = past_group[past_group['date'] == best_match_date].iloc[0]`
    match pg.filter (fun r => r.date = bd) with
    | [] => .ok none
    | m :: _ => .ok (some (buildMatchRow df fr.date bd target reason m))

/-- The inner loop over one entity's future rows, in frame order. -/
def goRows (df : DF) (pg : List Row) : List Row → Except String (List MRow)
  | [] => .ok []
  | fr :: frs =>
    match processTarget df pg fr with
    | .error e => .error e
    | .ok o =>
      match goRows df pg frs with
      | .error e => .error e
      | .ok rest => .ok (o.toList ++ rest)

/-- The outer loop over `target_dates.groupby('multiunit_id')` (pandas
groupby iterates keys in sorted order); entities with no past rows are
skipped. -/
def goIds (df : DF) (pastData targetDates : List Row) :
    List Nat → Except String (List MRow)
  | [] => .ok []
  | id :: ids =>
    let pg := pastData.filter (fun r => r.multiunit_id = id)
    if pg.isEmpty then goIds df pastData targetDates ids
    else
      match goRows df pg (targetDates.filter (fun r => r.multiunit_id = id)) with
      | .error e => .error e
      | .ok ms =>
        match goIds df pastData targetDates ids with
        | .error e => .error e
        | .ok rest => .ok (ms ++ rest)

/-- Sorted unique ids, for the groupby iteration order. -/
def uniqueSorted (l : List Nat) : List Nat :=
  l.dedup.insertionSort (fun a b => a ≤ b)

/-- Body of `PriceProcessor.find_improved_matches` (source lines 162–307),
producing the returned frame or the propagated exception. -/
def findImprovedCore (df : DF) : Except String MatchDF :=
  let targetDates := df.rows.filter (fun r =>
    matchStartDate ≤ r.date ∧ r.date ≤ matchEndDate)
  if targetDates.isEmpty then .ok { rows := [] }
  else
    let pastData := df.rows.filter (fun r => r.date < pastDateLimit)
    if pastData.isEmpty then .ok { rows := [] }
    else
      match goIds df pastData targetDates (uniqueSorted (targetDates.map (·.multiunit_id))) with
      | .error e => .error e
      | .ok ms =>
        if ms.isEmpty then .ok { rows := [] }
        else .ok { rows := ms, hasEventMatch := df.hasEvent }

/-- `PriceProcessor.find_improved_matches`.  Second component: the caller's
dataframe after the call — unchanged for a datetime-typed `date` column
(the only in-place effect in the source is the dtype conversion at lines
159–160; the function reads the input and builds a fresh result frame). -/
def find_improved_matches (df : DF) : Except String MatchDF × DF :=
  (findImprovedCore df, df)

/-! ## PatternAnalyzer — `PriceAnalyzer.detect_seasonal_patterns`

The source groups prices by `(multiunit_id, month)` and by `multiunit_id`,
merges the two aggregates on `multiunit_id`, and derives the seasonal
index and the peak/low flags.  The unused `quarterly_avg` aggregate is not
modelled.  pandas float division of two mean prices is exact on the
rationals except when the entity mean is 0: there IEEE float semantics
yield `+inf` (positive monthly mean), `-inf` (negative monthly mean) or
`NaN` (`0/0`).  The `SIdx` type carries these cases exactly: `+inf`
exceeds the 1.1 peak threshold, `-inf` lies below the 0.9 low threshold,
and `NaN` fails both comparisons. -/

/-- Value of the `seasonal_index` column: an IEEE float that is `NaN`, a
signed infinity, or an (exactly represented) finite value. -/
inductive SIdx where
  | nan : SIdx
  | posInf : SIdx
  | negInf : SIdx
  | val : ℚ → SIdx
  deriving DecidableEq, Repr

structure SRow where
  multiunit_id : Nat
  month : Int
  price : Option ℚ
  avg_price : Option ℚ
  seasonal_index : SIdx
  is_peak_season : Bool
  is_low_season : Bool
  deriving DecidableEq, Repr

/-- Float division of the two mean-price cells
(`monthly_patterns['price'] / monthly_patterns['avg_price']`), with IEEE
semantics at a zero or missing denominator: `NaN` when either operand is
`NaN` or for `0/0`, a signed infinity for a nonzero numerator over 0. -/
def divN : Option ℚ → Option ℚ → SIdx
  | some a, some b =>
    if b = 0 then
      if 0 < a then .posInf else if a < 0 then .negInf else .nan
    else .val (a / b)
  | _, _ => .nan

/-- `seasonal_index > 1.1` with pandas float comparison semantics:
`NaN > 1.1` is false, `+inf > 1.1` is true, `-inf > 1.1` is false. -/
def gtN (o : SIdx) (q : ℚ) : Bool :=
  match o with
  | .val v => q < v
  | .posInf => true
  | .negInf => false
  | .nan => false

/-- `seasonal_index < 0.9` with pandas float comparison semantics:
`NaN < 0.9` is false, `+inf < 0.9` is false, `-inf < 0.9` is true. -/
def ltN (o : SIdx) (q : ℚ) : Bool :=
  match o with
  | .val v => v < q
  | .posInf => false
  | .negInf => true
  | .nan => false

/-- Sorted unique `(multiunit_id, month)` keys of the monthly groupby. -/
def uniquePairsSorted (l : List (Nat × Int)) : List (Nat × Int) :=
  l.dedup.insertionSort (fun a b => a.1 < b.1 ∨ (a.1 = b.1 ∧ a.2 ≤ b.2))

/-- Mean price of one entity's rows in one month
(`df_copy.groupby(['multiunit_id', 'month'])['price'].mean()`). -/
def monthlyMean (df : DF) (id : Nat) (mo : Int) : Option ℚ :=
  meanOpt ((df.rows.filter (fun r => r.multiunit_id = id ∧ monthOf r.date = mo)).map (·.price))

/-- Mean price of one entity (`df_copy.groupby('multiunit_id')['price'].mean()`). -/
def entityMean (df : DF) (id : Nat) : Option ℚ :=
  meanOpt ((df.rows.filter (fun r => r.multiunit_id = id)).map (·.price))

/-- `PriceAnalyzer.detect_seasonal_patterns`; reading the `price` column of
a frame that lacks it raises `KeyError`. -/
def detect_seasonal_patterns (df : DF) : Except String (List SRow) :=
  if !df.hasPrice then .error "KeyError: price"
  else .ok (
    let ids := uniqueSorted (df.rows.map (·.multiunit_id))
    let propertyAvg := ids.map (fun i => (i, entityMean df i))
    let keys := uniquePairsSorted (df.rows.map (fun r => (r.multiunit_id, monthOf r.date)))
    keys.map (fun k =>
      let mm := monthlyMean df k.1 k.2
      -- `pd.merge(monthly_avg, property_avg, on='multiunit_id')`: inner
      -- join; the key is always present since both aggregates come from
      -- the same frame.
      let av := match propertyAvg.lookup k.1 with
        | some v => v
        | none => none
      let idx := divN mm av
      { multiunit_id := k.1, month := k.2, price := mm, avg_price := av,
        seasonal_index := idx,
        is_peak_season := gtN idx (11/10),
        is_low_season := ltN idx (9/10) }))

/-! ## Concrete datasets used to settle the claims

Dates are written through `daysFromCivil`, factor values are small exact
rationals.  Each claim gets its own data. -/

deriving instance DecidableEq for Except

/-- C1 input: the `base` column exists but its value is `NaN` on the second
row; no other factor column exists. -/
def c1DF : DF :=
  { rows := [ { multiunit_id := 1, date := daysFromCivil 2025 1 1, base := some 1 },
              { multiunit_id := 1, date := daysFromCivil 2025 1 2, base := none } ],
    hasBase := true }

/-- The first output row of `calculate_total_price c1DF`. -/
def c1OutRow : Row :=
  { multiunit_id := 1, date := daysFromCivil 2025 1 1, base := some 1,
    seasonality := some 0, dow := some 0, event := some 0, total_price := some 1 }

/-- C2 input: no `event` column; one target date in the forecast window and
one past row for the same entity. -/
def c2DF : DF :=
  { rows := [ { multiunit_id := 1, date := daysFromCivil 2025 6 15, price := some 100 },
              { multiunit_id := 1, date := daysFromCivil 2024 6 14, price := some 90 } ],
    hasPrice := true }

/-- C3 input: the entity's earliest date is 2024-01-02, one day after the
cutoff, and a full factor row exists exactly one year after the single
missing date. -/
def c3DF : DF :=
  { rows := [
      { multiunit_id := 1, date := daysFromCivil 2024 1 2, base := some 50,
        seasonality := some 10, dow := some 5, event := some 0, price := some 65 },
      { multiunit_id := 1, date := daysFromCivil 2025 1 1, base := some 50,
        seasonality := some 10, dow := some 5, event := some 0, price := some 65 } ],
    hasBase := true, hasSeasonality := true, hasDow := true, hasEvent := true,
    hasPrice := true }

/-- The single row synthesized from `c3DF`: it falls exactly on the cutoff
date 2024-01-01, with price `(50 + 10 + 5 + 0) × 0.97`. -/
def c3Row : Row :=
  { multiunit_id := 1, date := daysFromCivil 2024 1 1, base := some 50,
    seasonality := some 10, dow := some 5, event := some 0,
    price := some (1261/20), is_extrapolated := some true }

/-- C4 input: the (global) earliest date equals the cutoff and the frame has
no `is_extrapolated` column. -/
def c4DF : DF :=
  { rows := [ { multiunit_id := 1, date := daysFromCivil 2024 1 1 } ] }

/-- C5 input: no factor columns except `dow` and `price`; for missing date
2024-01-01 there is no exact next-year row, and the only same-weekday match
(2024-12-25, a Wednesday like 2025-01-01) has a `NaN` price. -/
def c5DF : DF :=
  { rows := [
      { multiunit_id := 1, date := daysFromCivil 2024 1 2, dow := some 2, price := some 40 },
      { multiunit_id := 1, date := daysFromCivil 2024 12 25, dow := some 5, price := none } ],
    hasDow := true, hasPrice := true }

/-- The row `c5DF` makes the extrapolator emit: neither price rule applies,
yet the record is appended — with no price at all. -/
def c5Row : Row :=
  { multiunit_id := 1, date := daysFromCivil 2024 1 1, dow := some 5,
    is_extrapolated := some true }

/-- C5: the single same-weekday match, whose price is `NaN`. -/
def c5cd : Row :=
  { multiunit_id := 1, date := daysFromCivil 2024 12 25, dow := some 5, price := none }

/-- C6 input: for missing date 2024-01-01 there are two same-weekday
matches near 2025-01-01 (so `closest_date` is never assigned) and the
factor keys are incomplete (no `event` column), on the very first candidate
date processed. -/
def c6DF : DF :=
  { rows := [
      { multiunit_id := 1, date := daysFromCivil 2024 1 2, dow := some 1 },
      { multiunit_id := 1, date := daysFromCivil 2024 12 25, dow := some 5 },
      { multiunit_id := 1, date := daysFromCivil 2025 1 1, dow := some 7 } ],
    hasDow := true }

/-- C7 input: one entity starting after the cutoff whose candidate date has
no same-weekday analog, so the loop emits nothing and the no-extrapolation
branch mutates the caller's frame. -/
def c7DF : DF :=
  { rows := [ { multiunit_id := 1, date := daysFromCivil 2024 1 2 } ] }

/-- C8/C2-complement input: event column present; the target 2025-06-15 is
served by the past row at its exact minus-one-year date. -/
def c8DF : DF :=
  { rows := [
      { multiunit_id := 1, date := daysFromCivil 2025 6 15, event := some 0, price := some 100 },
      { multiunit_id := 1, date := daysFromCivil 2024 6 15, event := none, price := some 90 } ],
    hasEvent := true, hasPrice := true }

/-- The match result for `c8DF`. -/
def c8Res : MatchDF :=
  { rows := [
      { multiunit_id := 1, date := daysFromCivil 2025 6 15,
        matched_from := daysFromCivil 2024 6 15, days_diff := 0,
        is_improved_match := true, match_reason := "weekday_match_no_event",
        price := some (927/10) } ],
    hasEventMatch := true }

/-- C9: past rows offering both an event-tier candidate (2024-06-10, event
50, within 20 of the target's 40) and an exact-weekday no-event candidate
(2024-06-15). -/
def c9ev : Row :=
  { multiunit_id := 1, date := daysFromCivil 2024 6 10, event := some 50, price := some 80 }

/-- C9: the exact-weekday, no-event historical candidate. -/
def c9wd : Row :=
  { multiunit_id := 1, date := daysFromCivil 2024 6 15, event := some 0, price := some 90 }

def c9pg : List Row := [c9ev, c9wd]

/-- C9: the future row, with a qualifying event factor. -/
def c9fr : Row :=
  { multiunit_id := 1, date := daysFromCivil 2025 6 15, event := some 40 }

/-- C10 input: three entities — entity 1 with a cheap January and an
expensive July, entity 2 with a single price, and entity 3 whose prices
(+10 and −10) average to a zero entity mean, exercising the `±inf`
seasonal-index cases of the float division. -/
def c10DF : DF :=
  { rows := [
      { multiunit_id := 1, date := daysFromCivil 2025 1 5, price := some 100 },
      { multiunit_id := 1, date := daysFromCivil 2025 1 9, price := some 110 },
      { multiunit_id := 1, date := daysFromCivil 2025 7 5, price := some 220 },
      { multiunit_id := 2, date := daysFromCivil 2025 7 6, price := some 50 },
      { multiunit_id := 3, date := daysFromCivil 2025 1 10, price := some 10 },
      { multiunit_id := 3, date := daysFromCivil 2025 2 10, price := some (-10) } ],
    hasPrice := true }

/-- The seasonal-pattern output for `c10DF`; entity 3's rows carry an
infinite index and are flagged peak (`+inf > 1.1`) and low
(`-inf < 0.9`) respectively. -/
def c10Out : List SRow :=
  [ { multiunit_id := 1, month := 1, price := some 105, avg_price := some (430/3),
      seasonal_index := .val (63/86), is_peak_season := false, is_low_season := true },
    { multiunit_id := 1, month := 7, price := some 220, avg_price := some (430/3),
      seasonal_index := .val (66/43), is_peak_season := true, is_low_season := false },
    { multiunit_id := 2, month := 7, price := some 50, avg_price := some 50,
      seasonal_index := .val 1, is_peak_season := false, is_low_season := false },
    { multiunit_id := 3, month := 1, price := some 10, avg_price := some 0,
      seasonal_index := .posInf, is_peak_season := true, is_low_season := false },
    { multiunit_id := 3, month := 2, price := some (-10), avg_price := some 0,
      seasonal_index := .negInf, is_peak_season := false, is_low_season := true } ]

/-! ## Helper lemmas -/

theorem mem_dateRange {a b d : Int} (h : d ∈ dateRange a b) : a ≤ d ∧ d ≤ b := by
  simp only [dateRange, List.mem_map, List.mem_range] at h
  obtain ⟨i, hi, rfl⟩ := h
  omega

theorem argminBy_mem {f : α → Int} {l : List α} {r : α}
    (h : argminBy f l = some r) : r ∈ l := by
  match l with
  | [] => simp [argminBy] at h
  | x :: xs =>
    simp only [argminBy, Option.some.injEq] at h
    subst h
    induction xs generalizing x with
    | nil => simp
    | cons y ys ih =>
      simp only [List.foldl_cons]
      by_cases hc : f y < f x
      · simp only [if_pos hc]
        have := ih y
        simp only [List.mem_cons] at this ⊢
        tauto
      · simp only [if_neg hc]
        have := ih x
        simp only [List.mem_cons] at this ⊢
        tauto

theorem minD_eq_none {l : List Int} (h : minD l = none) : l = [] := by
  cases l with
  | nil => rfl
  | cons a t =>
    rcases ht : minD t with _ | b <;> simp [minD, ht] at h

theorem minD_le {l : List Int} {m : Int} (h : minD l = some m) :
    ∀ x ∈ l, m ≤ x := by
  induction l generalizing m with
  | nil => simp [minD] at h
  | cons a t ih =>
    intro x hx
    rcases ht : minD t with _ | b
    · have ht' : t = [] := minD_eq_none ht
      subst ht'
      simp only [minD, Option.some.injEq] at h
      subst h
      simp only [List.mem_singleton] at hx
      subst hx
      exact le_refl _
    · simp only [minD, ht, Option.some.injEq] at h
      subst h
      rcases List.mem_cons.mp hx with rfl | hx'
      · exact min_le_left _ _
      · exact le_trans (min_le_right _ _) (ih ht x hx')

theorem argminBy_ne_nil {f : α → Int} {l : List α} (h : l ≠ []) :
    ∃ m, argminBy f l = some m := by
  cases l with
  | nil => exact absurd rfl h
  | cons x xs => exact ⟨_, rfl⟩

/-- A row emitted by `stepDate` carries the entity id and the candidate
date it was synthesized for. -/
theorem stepDate_ok_some {df : DF} {group : List Row} {id : Nat} {d : Int}
    {st st' : Option Row} {r : Row}
    (h : stepDate df group id d st = .ok (some r, st')) :
    r.multiunit_id = id ∧ r.date = d := by
  simp only [stepDate] at h
  split at h
  · split at h
    · exact absurd h (by simp)
    · simp only [Except.ok.injEq, Prod.mk.injEq, Option.some.injEq] at h
      obtain ⟨hr, _⟩ := h
      subst hr
      exact ⟨rfl, rfl⟩
  · simp at h

/-- Rows emitted by the per-entity date loop come from its candidate
dates. -/
theorem processDates_mem {df : DF} {group : List Row} {id : Nat} :
    ∀ {ds : List Int} {st st' : Option Row} {out : List Row},
      processDates df group id ds st = .ok (out, st') →
      ∀ r ∈ out, r.multiunit_id = id ∧ r.date ∈ ds := by
  intro ds
  induction ds with
  | nil =>
    intro st st' out h r hr
    simp only [processDates, Except.ok.injEq, Prod.mk.injEq] at h
    obtain ⟨h1, _⟩ := h
    subst h1
    simp at hr
  | cons d ds ih =>
    intro st st' out h r hr
    simp only [processDates] at h
    split at h
    · exact absurd h (by simp)
    · rename_i o st1 hsd
      split at h
      · exact absurd h (by simp)
      · rename_i rs st2 hpd
        simp only [Except.ok.injEq, Prod.mk.injEq] at h
        obtain ⟨h1, _⟩ := h
        subst h1
        rcases List.mem_append.mp hr with hro | hrs
        · rcases o with _ | or
          · simp at hro
          · simp only [Option.toList, List.mem_singleton] at hro
            subst hro
            have hsome := stepDate_ok_some hsd
            exact ⟨hsome.1, by simp [hsome.2]⟩
        · have hm := ih hpd r hrs
          exact ⟨hm.1, by simp [hm.2]⟩

/-- Rows emitted for one entity lie between the cutoff and the day before
that entity's earliest date. -/
theorem processEntity_mem {df : DF} {id : Nat} {st st' : Option Row} {out : List Row}
    (h : processEntity df id st = .ok (out, st')) :
    ∀ r ∈ out, targetStartDate ≤ r.date ∧ r.multiunit_id = id ∧
      ∀ o ∈ df.rows, o.multiunit_id = id → r.date < o.date := by
  intro r hr
  simp only [processEntity] at h
  split at h
  · simp only [Except.ok.injEq, Prod.mk.injEq] at h
    obtain ⟨h1, _⟩ := h
    subst h1
    simp at hr
  · rename_i ge hge
    split at h
    · have hmem := processDates_mem h r hr
      have hd := mem_dateRange hmem.2
      refine ⟨hd.1, hmem.1, ?_⟩
      intro o ho hoid
      have hosort : o ∈ sortByDate (df.rows.filter (fun s => s.multiunit_id = id)) := by
        rw [sortByDate, List.mem_insertionSort]
        exact List.mem_filter.mpr ⟨ho, by simp [hoid]⟩
      have hge' : ge ≤ o.date := minD_le hge o.date (List.mem_map.mpr ⟨o, hosort, rfl⟩)
      have hd2 := hd.2
      omega
    · simp only [Except.ok.injEq, Prod.mk.injEq] at h
      obtain ⟨h1, _⟩ := h
      subst h1
      simp at hr

/-- The bound of `processEntity_mem`, threaded through the entity loop. -/
theorem processEntities_mem {df : DF} :
    ∀ {ids : List Nat} {st : Option Row} {out : List Row},
      processEntities df ids st = .ok out →
      ∀ r ∈ out, targetStartDate ≤ r.date ∧
        ∀ o ∈ df.rows, o.multiunit_id = r.multiunit_id → r.date < o.date := by
  intro ids
  induction ids with
  | nil =>
    intro st out h r hr
    simp only [processEntities, Except.ok.injEq] at h
    subst h
    simp at hr
  | cons id ids ih =>
    intro st out h r hr
    simp only [processEntities] at h
    split at h
    · exact absurd h (by simp)
    · rename_i rs st1 hpe
      split at h
      · exact absurd h (by simp)
      · rename_i rest hrest
        simp only [Except.ok.injEq] at h
        subst h
        rcases List.mem_append.mp hr with h1 | h2
        · have hm := processEntity_mem hpe r h1
          exact ⟨hm.1, fun o ho hid => hm.2.2 o ho (by rw [hid, hm.2.1])⟩
        · exact ih hrest r h2

/-- A match row is emitted for the future row's own date, and its
`matched_from` date belongs to the entity's past rows. -/
theorem processTarget_some {df : DF} {pg : List Row} {fr : Row} {r : MRow}
    (h : processTarget df pg fr = .ok (some r)) :
    r.date = fr.date ∧ ∃ m ∈ pg, m.date = r.matched_from := by
  simp only [processTarget] at h
  split at h
  · exact absurd h (by simp)
  · exact absurd h (by simp)
  · rename_i bd reason heq
    split at h
    · exact absurd h (by simp)
    · rename_i m rest hf
      simp only [Except.ok.injEq, Option.some.injEq] at h
      subst h
      have hmf : m ∈ pg.filter (fun s => s.date = bd) := by
        rw [hf]
        exact List.mem_cons_self _ _
      refine ⟨rfl, m, List.mem_of_mem_filter hmf, ?_⟩
      have hd := List.of_mem_filter hmf
      simpa using hd

theorem goRows_mem {df : DF} {pg : List Row} :
    ∀ {frs : List Row} {out : List MRow}, goRows df pg frs = .ok out →
      ∀ r ∈ out, ∃ fr ∈ frs, processTarget df pg fr = .ok (some r) := by
  intro frs
  induction frs with
  | nil =>
    intro out h r hr
    simp only [goRows, Except.ok.injEq] at h
    subst h
    simp at hr
  | cons fr frs ih =>
    intro out h r hr
    simp only [goRows] at h
    split at h
    · exact absurd h (by simp)
    · rename_i o hpt
      split at h
      · exact absurd h (by simp)
      · rename_i rest hrest
        simp only [Except.ok.injEq] at h
        subst h
        rcases List.mem_append.mp hr with h1 | h2
        · rcases o with _ | orow
          · simp at h1
          · simp only [Option.toList, List.mem_singleton] at h1
            subst h1
            exact ⟨fr, List.mem_cons_self _ _, hpt⟩
        · obtain ⟨fr', hfr', hpt'⟩ := ih hrest r h2
          exact ⟨fr', List.mem_cons_of_mem _ hfr', hpt'⟩

theorem goIds_mem {df : DF} {pastData targetDates : List Row} :
    ∀ {ids : List Nat} {out : List MRow},
      goIds df pastData targetDates ids = .ok out →
      ∀ r ∈ out, ∃ fr ∈ targetDates, r.date = fr.date ∧
        ∃ m ∈ pastData, m.date = r.matched_from := by
  intro ids
  induction ids with
  | nil =>
    intro out h r hr
    simp only [goIds, Except.ok.injEq] at h
    subst h
    simp at hr
  | cons id ids ih =>
    intro out h r hr
    simp only [goIds] at h
    split at h
    · exact ih h r hr
    · split at h
      · exact absurd h (by simp)
      · rename_i ms hgr
        split at h
        · exact absurd h (by simp)
        · rename_i rest hrest
          simp only [Except.ok.injEq] at h
          subst h
          rcases List.mem_append.mp hr with h1 | h2
          · obtain ⟨fr, hfr, hpt⟩ := goRows_mem hgr r h1
            have hps := processTarget_some hpt
            obtain ⟨m, hm, hmd⟩ := hps.2
            exact ⟨fr, List.mem_of_mem_filter hfr, hps.1, m,
              List.mem_of_mem_filter hm, hmd⟩
          · exact ih hrest r h2

/-- Looking an id up in the per-entity aggregate built over a list
containing it yields exactly that id's aggregate (the `pd.merge` step). -/
theorem lookup_map_self {f : Nat → Option ℚ} :
    ∀ {ids : List Nat} {id : Nat}, id ∈ ids →
      (ids.map (fun i => (i, f i))).lookup id = some (f id) := by
  intro ids
  induction ids with
  | nil =>
    intro id h
    simp at h
  | cons a t ih =>
    intro id h
    simp only [List.map, List.lookup]
    by_cases hid : id = a
    · subst hid
      simp
    · have hbeq : (id == a) = false := beq_false_of_ne hid
      rw [hbeq]
      exact ih (by rcases List.mem_cons.mp h with h' | h'; exact absurd h' hid; exact h')

theorem mem_of_uniquePairsSorted {l : List (Nat × Int)} {k : Nat × Int}
    (h : k ∈ uniquePairsSorted l) : k ∈ l := by
  rw [uniquePairsSorted, List.mem_insertionSort, List.mem_dedup] at h
  exact h

theorem mem_uniqueSorted_of_mem {l : List Nat} {a : Nat} (h : a ∈ l) :
    a ∈ uniqueSorted l := by
  rw [uniqueSorted, List.mem_insertionSort, List.mem_dedup]
  exact h

/-! ## Claim C1 -/

/-- Claim C1 is false as stated: `calculate_total_price` only substitutes 0
for factor columns that are absent from the whole frame.  A `NaN` value in
a column that exists propagates, so the second row of `c1DF` gets
`total_price = NaN`, not the claimed `0`.  The pairs below are
(actual `total_price`, the claim's missing-as-0 sum) per row; they differ
on the second row. -/
theorem c1_counterexample :
    (calculate_total_price c1DF).1.rows.map (fun r =>
        (r.total_price,
         some (r.base.getD 0 + r.seasonality.getD 0 + r.dow.getD 0 + r.event.getD 0))) =
      [(some 1, some 1), (none, some 0)] ∧
    (none : Option ℚ) ≠ some 0 :=
  of_decide_eq_true (by with_unfolding_all rfl)

/-- Claim C1 (amended): after `calculate_total_price`, every output row has
`total_price` equal to the NaN-propagating sum `base + seasonality + dow +
event` of its (filled) factor cells, and each factor column that was absent
from the whole input frame has been filled with 0 — so a row whose present
factor values are all non-missing gets the exact sum with absent columns as
0, while a row-level missing value in an existing column yields a missing
`total_price` rather than being treated as 0. -/
theorem c1_total_price :
    ∀ (df : DF), ∀ r ∈ (calculate_total_price df).1.rows,
      r.total_price = addN (addN (addN r.base r.seasonality) r.dow) r.event ∧
      (df.hasBase = false → r.base = some 0) ∧
      (df.hasSeasonality = false → r.seasonality = some 0) ∧
      (df.hasDow = false → r.dow = some 0) ∧
      (df.hasEvent = false → r.event = some 0) := by
  intro df r hr
  simp only [calculate_total_price, List.mem_map] at hr
  obtain ⟨s, _, rfl⟩ := hr
  refine ⟨rfl, ?_, ?_, ?_, ?_⟩ <;> intro h <;> simp [h]

/-- Witness for `c1_total_price` at the first row of `c1DF`'s output. -/
theorem c1_total_price_witness :
    c1OutRow ∈ (calculate_total_price c1DF).1.rows ∧
    (c1OutRow.total_price =
        addN (addN (addN c1OutRow.base c1OutRow.seasonality) c1OutRow.dow) c1OutRow.event ∧
      (c1DF.hasBase = false → c1OutRow.base = some 0) ∧
      (c1DF.hasSeasonality = false → c1OutRow.seasonality = some 0) ∧
      (c1DF.hasDow = false → c1OutRow.dow = some 0) ∧
      (c1DF.hasEvent = false → c1OutRow.event = some 0)) := by
  have hrows : (calculate_total_price c1DF).1.rows =
      [c1OutRow,
       { multiunit_id := 1, date := daysFromCivil 2025 1 2, seasonality := some 0,
         dow := some 0, event := some 0 }] := by
    with_unfolding_all rfl
  have hmem : c1OutRow ∈ (calculate_total_price c1DF).1.rows := by
    rw [hrows]
    exact List.mem_cons_self _ _
  exact ⟨hmem, c1_total_price c1DF c1OutRow hmem⟩

/-! ## Claim C2 -/

/-- Claim C2 (code bug): on a dataset with no `event` column, a target date
in the forecast window, and a past row for the same entity, the tier-3
(21-day) candidate filter reads `past_group['event']` unconditionally, so
`find_improved_matches` raises `KeyError: 'event'` instead of falling
through to the widened same-weekday search. -/
theorem c2_keyerror :
    (find_improved_matches c2DF).1 = .error "KeyError: event" ∧ c2DF.hasEvent = false := by
  decide

/-! ## Claim C3 -/

/-- Claim C3 is false as stated: the candidate range
`pd.date_range(cutoff, earliest - 1 day)` starts at the cutoff itself, so
on `c3DF` the extrapolator emits a record dated exactly 2024-01-01 — not
strictly before the cutoff. -/
theorem c3_counterexample :
    extrapolatedRows c3DF = .ok [c3Row] ∧ ¬(c3Row.date < targetStartDate) := by
  constructor
  · with_unfolding_all rfl
  · intro hlt
    have heq : c3Row.date = targetStartDate := rfl
    omega

/-- Claim C3 (amended): every record emitted by BackwardExtrapolator has
its date on or after the cutoff — never strictly before it, and the
concrete dataset `c3DF` shows a record dated exactly on the cutoff is
possible — and strictly before that entity's own earliest original
date. -/
theorem c3_bounds :
    ∀ (df : DF) (ext : List Row), extrapolatedRows df = .ok ext →
      ∀ r ∈ ext, targetStartDate ≤ r.date ∧
        ∀ o ∈ df.rows, o.multiunit_id = r.multiunit_id → r.date < o.date := by
  intro df ext h r hr
  simp only [extrapolatedRows] at h
  split at h
  · exact processEntities_mem h r hr
  · split at h
    · simp only [Except.ok.injEq] at h
      subst h
      simp at hr
    · exact processEntities_mem h r hr

/-- Witness for `c3_bounds` on `c3DF`. -/
theorem c3_bounds_witness :
    extrapolatedRows c3DF = .ok [c3Row] ∧
    (∀ r ∈ [c3Row], targetStartDate ≤ r.date ∧
      ∀ o ∈ c3DF.rows, o.multiunit_id = r.multiunit_id → r.date < o.date) :=
  ⟨by with_unfolding_all rfl, c3_bounds c3DF [c3Row] (by with_unfolding_all rfl)⟩

/-! ## Claim C4 -/

/-- Claim C4 is false as stated: on `c4DF` (earliest date = cutoff, no
`is_extrapolated` column) the early return at source lines 44–46 hands the
input back unchanged — the result does not contain the `is_extrapolated`
column at all. -/
theorem c4_counterexample :
    (extrapolate_prices_backward c4DF).1 = .ok c4DF ∧ c4DF.hasIsExtrap = false := by
  constructor
  · with_unfolding_all rfl
  · rfl

/-- Claim C4 (amended): for every dataset whose global earliest date is at
or before the cutoff, `extrapolate_prices_backward` is a complete no-op:
it returns the input dataframe itself, unchanged and unmutated — in
particular the `is_extrapolated` column is not added on this path (it is
present in the result only when already present in the input). -/
theorem c4_noop :
    ∀ (df : DF) (e : Int), minD (df.rows.map (·.date)) = some e → e ≤ targetStartDate →
      extrapolate_prices_backward df = (.ok df, df) := by
  intro df e h he
  simp only [extrapolate_prices_backward]
  rw [h]
  simp [he]

/-- Witness for `c4_noop` on `c4DF`. -/
theorem c4_noop_witness :
    minD (c4DF.rows.map (·.date)) = some targetStartDate ∧
    targetStartDate ≤ targetStartDate ∧
    extrapolate_prices_backward c4DF = (.ok c4DF, c4DF) :=
  ⟨by with_unfolding_all rfl, le_refl _,
   c4_noop c4DF targetStartDate (by with_unfolding_all rfl) (le_refl _)⟩

/-! ## Claim C5 -/

/-- Claim C5 is false as stated: on `c5DF` neither price-resolution rule
applies for candidate date 2024-01-01 (no exact next-year match, and the
only same-weekday analog has a `NaN` price), yet a record is still emitted
for that date — with no price — because the `append` at source line 118
sits outside the price `if`/`elif`. -/
theorem c5_counterexample :
    extrapolatedRows c5DF = .ok [c5Row] ∧ c5Row.price = none := by
  constructor
  · with_unfolding_all rfl
  · rfl

/-- Claim C5 (amended): when neither price-resolution rule applies — here
with no exact next-year match (so the factor keys are incomplete) and a
single same-weekday analog whose price is missing — the candidate date is
not dropped and no warning is issued: a record is emitted for it carrying
the analog's `dow` value and no price. -/
theorem c5_no_price_still_emitted :
    ∀ (df : DF) (group : List Row) (id : Nat) (d : Int) (st : Option Row) (cd : Row),
      group.filter (fun r => r.date = addYears1 d) = [] →
      df.hasDow = true →
      group.filter (fun r =>
        weekday r.date = weekday (addYears1 d) ∧
          addYears1 d - 14 ≤ r.date ∧ r.date ≤ addYears1 d + 14) = [cd] →
      cd.price = none →
      stepDate df group id d st =
        .ok (some (mkExtrapRow id d none none (some cd.dow) none none), some cd) ∧
      (mkExtrapRow id d none none (some cd.dow) none none).price = none := by
  intro df group id d st cd hexact hdow hswd hprice
  constructor
  · simp only [stepDate, hexact, hswd, hdow, copiedKey, stepPrice, argminBy,
      List.isEmpty_cons, Bool.not_false, Bool.and_true, Bool.true_and,
      List.length_singleton, List.foldl_nil, hprice, Option.isSome_none,
      Bool.and_false, Option.isSome]
    norm_num
  · rfl

/-- Witness for `c5_no_price_still_emitted` on `c5DF`'s rows. -/
theorem c5_no_price_still_emitted_witness :
    c5DF.rows.filter (fun r => r.date = addYears1 targetStartDate) = [] ∧
    c5DF.hasDow = true ∧
    c5DF.rows.filter (fun r =>
      weekday r.date = weekday (addYears1 targetStartDate) ∧
        addYears1 targetStartDate - 14 ≤ r.date ∧
        r.date ≤ addYears1 targetStartDate + 14) = [c5cd] ∧
    c5cd.price = none ∧
    (stepDate c5DF c5DF.rows 1 targetStartDate none =
        .ok (some (mkExtrapRow 1 targetStartDate none none (some c5cd.dow) none none),
             some c5cd) ∧
      (mkExtrapRow 1 targetStartDate none none (some c5cd.dow) none none).price = none) :=
  ⟨by with_unfolding_all rfl, rfl, by with_unfolding_all rfl, rfl,
   c5_no_price_still_emitted c5DF c5DF.rows 1 targetStartDate none c5cd
     (by with_unfolding_all rfl) rfl (by with_unfolding_all rfl) rfl⟩

/-! ## Claim C6 -/

/-- Claim C6 (code bug): a failure while synthesizing a single candidate
date is not localized.  On `c6DF` the first candidate date finds two
same-weekday analogs (so `closest_date` is never assigned) with incomplete
factor keys; the `elif 'price' in closest_date` test raises a `NameError`
that `except (KeyError, ValueError)` does not catch, aborting the entire
run instead of skipping the date. -/
theorem c6_uncaught_abort :
    (extrapolate_prices_backward c6DF).1 = .error nameErrorMsg := by
  decide

/-! ## Claim C7 -/

/-- Claim C7 is false as stated: on `c7DF` (one entity after the cutoff,
loop emits nothing, no `is_extrapolated` column) the source executes
`df['is_extrapolated'] = False` on the caller's dataframe (line 143), so
the input is not left unchanged. -/
theorem c7_counterexample : (extrapolate_prices_backward c7DF).2 ≠ c7DF := by
  intro h
  have heval : (extrapolate_prices_backward c7DF).2 = addIsExtrapFalse c7DF := by
    with_unfolding_all rfl
  rw [heval] at h
  have hflag := congrArg DF.hasIsExtrap h
  simp [addIsExtrapFalse, c7DF] at hflag

/-- Claim C7 (amended): with a datetime-typed `date` column,
PriceAggregator and AnalogMatcher leave the input dataframe unchanged, but
BackwardExtrapolator is not always pure: its post-call input is either
unchanged or has had the `is_extrapolated` column added in place (filled
`false`), the latter exactly on the path where the extrapolation loop
produced no rows and the column was absent.  (With a string-typed `date`
column both processors additionally convert that column in place, outside
this embedding.) -/
theorem c7_frame :
    ∀ (df : DF),
      (calculate_total_price df).2 = df ∧
      (find_improved_matches df).2 = df ∧
      ((extrapolate_prices_backward df).2 = df ∨
        (extrapolate_prices_backward df).2 = addIsExtrapFalse df) := by
  intro df
  refine ⟨rfl, rfl, ?_⟩
  simp only [extrapolate_prices_backward]
  split
  · split
    · exact Or.inl rfl
    · split
      · exact Or.inl rfl
      · split
        · by_cases hie : df.hasIsExtrap
          · exact Or.inl (by simp [hie])
          · exact Or.inr (by simp [hie])
        · exact Or.inl rfl
  · by_cases hie : df.hasIsExtrap
    · exact Or.inl (by simp [hie])
    · exact Or.inr (by simp [hie])

/-! ## Claim C8 -/

/-- Claim C8: every record emitted by AnalogMatcher has its date inside
the forecast window `[2025-01-01, 2026-03-31]` and its `matched_from` date
strictly before the past boundary 2025-04-21. -/
theorem c8_window_bounds :
    ∀ (df : DF) (res : MatchDF), (find_improved_matches df).1 = .ok res →
      ∀ r ∈ res.rows,
        matchStartDate ≤ r.date ∧ r.date ≤ matchEndDate ∧
          r.matched_from < pastDateLimit := by
  intro df res h r hr
  simp only [find_improved_matches, findImprovedCore] at h
  split at h
  · simp only [Except.ok.injEq] at h
    subst h
    simp at hr
  · split at h
    · simp only [Except.ok.injEq] at h
      subst h
      simp at hr
    · split at h
      · exact absurd h (by simp)
      · rename_i ms hgo
        split at h
        · simp only [Except.ok.injEq] at h
          subst h
          simp at hr
        · simp only [Except.ok.injEq] at h
          subst h
          obtain ⟨fr, hfr, hdate, m, hm, hmd⟩ := goIds_mem hgo r hr
          have hfr' := List.of_mem_filter hfr
          have hm' := List.of_mem_filter hm
          simp only [decide_eq_true_eq] at hfr' hm'
          obtain ⟨hf1, hf2⟩ := hfr'
          refine ⟨by omega, by omega, by omega⟩

/-- Witness for `c8_window_bounds` on `c8DF`. -/
theorem c8_window_bounds_witness :
    (find_improved_matches c8DF).1 = .ok c8Res ∧
    (∀ r ∈ c8Res.rows,
      matchStartDate ≤ r.date ∧ r.date ≤ matchEndDate ∧
        r.matched_from < pastDateLimit) :=
  ⟨by with_unfolding_all rfl, c8_window_bounds c8DF c8Res (by with_unfolding_all rfl)⟩

/-! ## Claim C9 -/

/-- Claim C9: the matching tiers are evaluated in strict order with the
first non-empty tier winning.  For a target row whose own event factor
qualifies (`event > 1`), when the event tier has a candidate — even though
an exact-weekday no-event candidate also exists — the selected match is
the event-tier argmin, with `match_reason = "event_match"`, never a
weekday-tier reason. -/
theorem c9_event_tier_priority :
    ∀ (pg : List Row) (fr : Row) (target : Int) (fe : ℚ),
      fr.event = some fe → 1 < fe →
      tier1Cands pg target fe ≠ [] → tier2Cands pg target ≠ [] →
      ∃ bd m, selectMatch true pg fr target = .ok (some (bd, "event_match")) ∧
        argminBy (fun r => |r.date - target|) (tier1Cands pg target fe) = some m ∧
        m.date = bd := by
  intro pg fr target fe hev hgt h1 _h2
  obtain ⟨m, hm⟩ := argminBy_ne_nil (f := fun r => |r.date - target|) h1
  refine ⟨m.date, m, ?_, hm, rfl⟩
  simp only [selectMatch, hev, hgt, if_true, hm, Option.map_some']

/-- Witness for `c9_event_tier_priority` on `c9pg`/`c9fr`. -/
theorem c9_event_tier_priority_witness :
    c9fr.event = some 40 ∧ (1 : ℚ) < 40 ∧
    tier1Cands c9pg (subYears1 c9fr.date) 40 ≠ [] ∧
    tier2Cands c9pg (subYears1 c9fr.date) ≠ [] ∧
    (∃ bd m,
      selectMatch true c9pg c9fr (subYears1 c9fr.date) = .ok (some (bd, "event_match")) ∧
      argminBy (fun r => |r.date - subYears1 c9fr.date|)
          (tier1Cands c9pg (subYears1 c9fr.date) 40) = some m ∧
      m.date = bd) := by
  have ht1 : tier1Cands c9pg (subYears1 c9fr.date) 40 = [c9ev] := by with_unfolding_all rfl
  have ht2 : tier2Cands c9pg (subYears1 c9fr.date) = [c9wd] := by with_unfolding_all rfl
  refine ⟨rfl, by norm_num, ?_, ?_, ?_⟩
  · rw [ht1]
    exact List.cons_ne_nil _ _
  · rw [ht2]
    exact List.cons_ne_nil _ _
  · exact c9_event_tier_priority c9pg c9fr (subYears1 c9fr.date) 40 rfl (by norm_num)
      (by rw [ht1]; exact List.cons_ne_nil _ _) (by rw [ht2]; exact List.cons_ne_nil _ _)

/-! ## Claim C10 -/

/-- Claim C10: every `(entity, month)` row of the seasonal-pattern output
carries `seasonal_index` equal to that entity's monthly mean price divided
by the entity's overall mean price (as the IEEE float quotient: `±inf`
over a zero entity mean, `NaN` when a mean is missing or for `0/0`),
`is_peak_season` true exactly when the index exceeds 1.10 — which `+inf`
does — and `is_low_season` true exactly when the index is below 0.90 —
which `-inf` is; a `NaN` index fails both comparisons. -/
theorem c10_seasonal_index :
    ∀ (df : DF) (out : List SRow), detect_seasonal_patterns df = .ok out →
      ∀ s ∈ out,
        s.price = monthlyMean df s.multiunit_id s.month ∧
        s.avg_price = entityMean df s.multiunit_id ∧
        s.seasonal_index =
          divN (monthlyMean df s.multiunit_id s.month) (entityMean df s.multiunit_id) ∧
        s.is_peak_season = gtN s.seasonal_index (11/10) ∧
        s.is_low_season = ltN s.seasonal_index (9/10) := by
  intro df out h s hs
  simp only [detect_seasonal_patterns] at h
  split at h
  · exact absurd h (by simp)
  · simp only [Except.ok.injEq] at h
    subst h
    simp only [List.mem_map] at hs
    obtain ⟨k, hk, rfl⟩ := hs
    have hk1 : k.1 ∈ uniqueSorted (df.rows.map (fun r => r.multiunit_id)) := by
      have hkl := mem_of_uniquePairsSorted hk
      simp only [List.mem_map] at hkl
      obtain ⟨r, hr, hrk⟩ := hkl
      exact mem_uniqueSorted_of_mem (List.mem_map.mpr ⟨r, hr, by rw [← hrk]⟩)
    have hlook :
        ((uniqueSorted (df.rows.map (fun r => r.multiunit_id))).map
            (fun i => (i, entityMean df i))).lookup k.1 = some (entityMean df k.1) :=
      lookup_map_self hk1
    refine ⟨rfl, ?_, ?_, rfl, rfl⟩
    · simp only [hlook]
    · simp only [hlook]

/-- Witness for `c10_seasonal_index` on `c10DF`. -/
theorem c10_seasonal_index_witness :
    detect_seasonal_patterns c10DF = .ok c10Out ∧
    (∀ s ∈ c10Out,
      s.price = monthlyMean c10DF s.multiunit_id s.month ∧
      s.avg_price = entityMean c10DF s.multiunit_id ∧
      s.seasonal_index =
        divN (monthlyMean c10DF s.multiunit_id s.month) (entityMean c10DF s.multiunit_id) ∧
      s.is_peak_season = gtN s.seasonal_index (11/10) ∧
      s.is_low_season = ltN s.seasonal_index (9/10)) :=
  ⟨by with_unfolding_all rfl, c10_seasonal_index c10DF c10Out (by with_unfolding_all rfl)⟩

end NightlyPrices
